import Mathlib

/-
Verification development for the tendril-wiki browser editor core
(static/mods/parsing.js and the save coordinator module).

The development shallowly embeds the two subsystems:
  - the markup codec (regex based span matching, encoding to presentation
    HTML and decoding of the presentation tree back to plain markup), and
  - the save coordinator (component registry plus finite state machine).

Strings are modelled as lists of characters; the JavaScript regular
expressions of the source are embedded as deterministic matchers that follow
the backtracking semantics of each concrete pattern, which is documented at
each definition.
-/

set_option maxRecDepth 8000

/-! ## Generic string utilities (JavaScript string primitives) -/

/-- Test whether p is a prefix of s, by character equality. -/
def isPrefixL (p s : List Char) : Bool :=
  s.take p.length == p

/-- Find the first occurrence of pat in s; return the text before it and the
text after it.  Embeds the search that backs String.prototype.replace with a
string pattern.  The fuel argument is always called with the length of s. -/
def splitAtOcc : Nat → List Char → List Char → Option (List Char × List Char)
  | 0, s, pat => if isPrefixL pat s then some ([], s.drop pat.length) else none
  | fuel+1, s, pat =>
    if isPrefixL pat s then some ([], s.drop pat.length)
    else
      match s with
      | [] => none
      | c :: rest =>
        match splitAtOcc fuel rest pat with
        | some (b, a) => some (c :: b, a)
        | none => none

/-- Test whether sub occurs in s.  Embeds String.prototype.includes. -/
def containsSub (s sub : List Char) : Bool :=
  (splitAtOcc s.length s sub).isSome

/-- Expand the dollar placeholders of a JavaScript replacement string
(GetSubstitution): dollar-dollar is a literal dollar, dollar-ampersand is the
matched text, dollar-backquote the text before the match, dollar-quote the
text after it.  With a string pattern there are no capture groups, so digit
forms stay literal. -/
def substDollar (matched before after : List Char) : Nat → List Char → List Char
  | 0, _ => []
  | _+1, [] => []
  | fuel+1, '$' :: c :: rest =>
    if c = '$' then '$' :: substDollar matched before after fuel rest
    else if c = '&' then matched ++ substDollar matched before after fuel rest
    else if c = Char.ofNat 0x60 then before ++ substDollar matched before after fuel rest
    else if c = Char.ofNat 39 then after ++ substDollar matched before after fuel rest
    else '$' :: substDollar matched before after fuel (c :: rest)
  | fuel+1, c :: rest => c :: substDollar matched before after fuel rest

/-- Embeds String.prototype.replace with a string pattern: replace the first
occurrence of pat in s with repl (after dollar substitution); if pat does not
occur, return s unchanged. -/
def replaceFirstJS (s pat repl : List Char) : List Char :=
  match splitAtOcc s.length s pat with
  | none => s
  | some (b, a) => b ++ substDollar pat b a repl.length repl ++ a

/-- Worker for replaceAllJS: pre is the part of the original subject already
consumed (used for the dollar-backquote form). -/
def replaceAllAux (pat repl : List Char) : Nat → List Char → List Char → List Char
  | 0, _, rest => rest
  | fuel+1, pre, rest =>
    if isPrefixL pat rest then
      substDollar pat pre (rest.drop pat.length) repl.length repl
        ++ replaceAllAux pat repl fuel (pre ++ pat) (rest.drop pat.length)
    else
      match rest with
      | [] => []
      | c :: rs => c :: replaceAllAux pat repl fuel (pre ++ [c]) rs

/-- Embeds String.prototype.replaceAll with a string pattern: replace every
non overlapping occurrence of pat, scanning left to right. -/
def replaceAllJS (s pat repl : List Char) : List Char :=
  replaceAllAux pat repl s.length [] s

/-- Split a string at every newline character.  Embeds text.split with a
newline separator in textToHtml. -/
def splitOnNl : List Char → List (List Char)
  | [] => [[]]
  | '\n' :: rest => [] :: splitOnNl rest
  | c :: rest =>
    match splitOnNl rest with
    | p :: ps => (c :: p) :: ps
    | [] => [[c]]

/-- Join line fragments with the explicit line break marker.  Embeds
.join of textToHtml. -/
def joinWithBr : List (List Char) → List Char
  | [] => []
  | [l] => l
  | l :: ls => l ++ ("<br>".data ++ joinWithBr ls)

/-- Split the inside of a wiki link at every pipe character.  Embeds
match[1].split in parseWikiLinks. -/
def splitOnPipe : List Char → List (List Char)
  | [] => [[]]
  | '|' :: rest => [] :: splitOnPipe rest
  | c :: rest =>
    match splitOnPipe rest with
    | p :: ps => (c :: p) :: ps
    | [] => [[c]]

/-! ## encodeURIComponent / decodeURIComponent -/

/-- Upper case hexadecimal digit of a value below 16. -/
def hexDigitUpper (n : Nat) : Char :=
  if n < 10 then Char.ofNat (48 + n) else Char.ofNat (55 + n)

/-- UTF-8 bytes of a code point. -/
def utf8BytesOf (n : Nat) : List Nat :=
  if n < 0x80 then [n]
  else if n < 0x800 then [0xc0 + n / 64, 0x80 + n % 64]
  else if n < 0x10000 then [0xe0 + n / 4096, 0x80 + (n / 64) % 64, 0x80 + n % 64]
  else [0xf0 + n / 0x40000, 0x80 + (n / 4096) % 64, 0x80 + (n / 64) % 64, 0x80 + n % 64]

/-- Percent escape for one byte. -/
def pctByte (b : Nat) : List Char :=
  ['%', hexDigitUpper (b / 16), hexDigitUpper (b % 16)]

/-- Characters that encodeURIComponent leaves unescaped. -/
def uriUnreservedChar (c : Char) : Bool :=
  c.isAlphanum || "-_.!~*()".data.contains c || c = Char.ofNat 39

/-- Embeds encodeURIComponent: unreserved characters pass through, all other
characters are percent encoded as UTF-8 bytes in upper case hexadecimal. -/
def encodeURIComponentL (s : List Char) : List Char :=
  (s.map (fun c =>
    if uriUnreservedChar c then [c]
    else ((utf8BytesOf c.toNat).map pctByte).flatten)).flatten

/-- Numeric value of a hexadecimal digit. -/
def hexVal (c : Char) : Option Nat :=
  if 48 ≤ c.toNat ∧ c.toNat ≤ 57 then some (c.toNat - 48)
  else if 65 ≤ c.toNat ∧ c.toNat ≤ 70 then some (c.toNat - 55)
  else if 97 ≤ c.toNat ∧ c.toNat ≤ 102 then some (c.toNat - 87)
  else none

/-- Read one percent escape at the head of the list, returning its byte. -/
def readPct : List Char → Option (Nat × List Char)
  | '%' :: h1 :: h2 :: rest =>
    match hexVal h1, hexVal h2 with
    | some a, some b => some (16 * a + b, rest)
    | _, _ => none
  | _ => none

/-- Read a run of UTF-8 continuation bytes (each a percent escape with top
bits 10), combining them most significant first. -/
def contsValue : Nat → List Char → Option (Nat × List Char)
  | 0, s => some (0, s)
  | k+1, s =>
    match readPct s with
    | some (b, rest) =>
      if 0x80 ≤ b ∧ b < 0xc0 then
        match contsValue k rest with
        | some (acc, rest2) => some ((b - 0x80) * 64 ^ k + acc, rest2)
        | none => none
      else none
    | none => none

/-- Embeds decodeURIComponent: percent escapes are decoded as UTF-8 byte
sequences; a malformed escape raises URIError, modelled as none.  Other
characters pass through unchanged. -/
def decodeURIAux : Nat → List Char → Option (List Char)
  | 0, [] => some []
  | 0, _ => none
  | _+1, [] => some []
  | fuel+1, '%' :: rest =>
    match readPct ('%' :: rest) with
    | none => none
    | some (b, rest1) =>
      if b < 0x80 then
        match decodeURIAux fuel rest1 with
        | some t => some (Char.ofNat b :: t)
        | none => none
      else if 0xc0 ≤ b ∧ b < 0xe0 then
        match contsValue 1 rest1 with
        | some (v, rest2) =>
          let cp := (b - 0xc0) * 64 + v
          if 0x80 ≤ cp then
            match decodeURIAux fuel rest2 with
            | some t => some (Char.ofNat cp :: t)
            | none => none
          else none
        | none => none
      else if 0xe0 ≤ b ∧ b < 0xf0 then
        match contsValue 2 rest1 with
        | some (v, rest2) =>
          let cp := (b - 0xe0) * 4096 + v
          if 0x800 ≤ cp ∧ ¬ (0xd800 ≤ cp ∧ cp ≤ 0xdfff) then
            match decodeURIAux fuel rest2 with
            | some t => some (Char.ofNat cp :: t)
            | none => none
          else none
        | none => none
      else if 0xf0 ≤ b ∧ b < 0xf8 then
        match contsValue 3 rest1 with
        | some (v, rest2) =>
          let cp := (b - 0xf0) * 0x40000 + v
          if 0x10000 ≤ cp ∧ cp ≤ 0x10ffff then
            match decodeURIAux fuel rest2 with
            | some t => some (Char.ofNat cp :: t)
            | none => none
          else none
        | none => none
      else none
  | fuel+1, c :: rest =>
    match decodeURIAux fuel rest with
    | some t => some (c :: t)
    | none => none

/-- String level decodeURIComponent. -/
def decodeURIComponentL (s : List Char) : Option (List Char) :=
  decodeURIAux s.length s

/-! ## Span matchers

The four regular expressions of static/mods/parsing.js, embedded as
deterministic matchers.  Each matcher follows the exact backtracking
behaviour of its pattern, argued at the definition. -/

/-- JavaScript whitespace class (backslash-s). -/
def jsWhitespace (c : Char) : Bool :=
  c = ' ' || c = '\t' || c = '\n' || c.toNat = 13 || c.toNat = 11 || c.toNat = 12 ||
  c.toNat = 0xa0 || c.toNat = 0x1680 || (0x2000 ≤ c.toNat && c.toNat ≤ 0x200a) ||
  c.toNat = 0x2028 || c.toNat = 0x2029 || c.toNat = 0x202f || c.toNat = 0x205f ||
  c.toNat = 0x3000 || c.toNat = 0xfeff

/-- Character class of WIKI_LINK_REGEXP: letters, digits, whitespace, and
question mark, hyphen, apostrophe, colon, underscore, right single quotation
mark, parentheses and pipe. -/
def wikiChar (c : Char) : Bool :=
  c.isAlphanum || jsWhitespace c || "?-:_(|)".data.contains c ||
  c = Char.ofNat 39 || c = Char.ofNat 0x2019

/-- Match WIKI_LINK_REGEXP at the head of s, returning the match length and
the capture (the text inside the double brackets).  The pattern is two open
brackets, one or more class characters, two close brackets; the class
contains no bracket, so the greedy run is the maximal class run and no
backtracking alternative exists. -/
def matchWikiAt (s : List Char) : Option (Nat × List Char) :=
  match s with
  | '[' :: '[' :: rest =>
    let inner := rest.takeWhile wikiChar
    if inner.isEmpty then none
    else
      match rest.drop inner.length with
      | ']' :: ']' :: _ => some (inner.length + 4, inner)
      | _ => none
  | _ => none

/-- Middle character class of URL_REGEXP (case insensitive). -/
def urlChar (c : Char) : Bool :=
  c.isAlphanum || "-+&@#/%=~_|$?!:.".data.contains c

/-- Final character class of URL_REGEXP: like urlChar but without hyphen,
question mark, exclamation mark, colon and dot. -/
def urlFinalChar (c : Char) : Bool :=
  c.isAlphanum || "+&@#/%=~_|$".data.contains c

/-- Case insensitive literal prefix test (the i flag of URL_REGEXP; the
pattern literals are lower case ASCII). -/
def ciPrefixAt (s p : List Char) : Bool :=
  (s.take p.length).map Char.toLower == p

/-- The scheme alternatives of URL_REGEXP in the order the alternation tries
them: https then http (the optional s is tried greedily first), then ftp and
file with the double slash, then the bare www. and ftp. prefixes. -/
def urlAltList : List (List Char) :=
  ["https://".data, "http://".data, "ftp://".data, "file://".data,
   "www.".data, "ftp.".data]

/-- One token of the body of URL_REGEXP: either a balanced parenthesis group
(open parenthesis, a run of urlChar, close parenthesis) or a single urlChar.
The boolean records whether the token can be the final one (a group always
can; a single character can when it is in the final class).  Parentheses are
not in the character class, so tokenisation is deterministic. -/
def urlTokenAt : List Char → Option (Nat × Bool)
  | [] => none
  | '(' :: rest =>
    let inner := rest.takeWhile urlChar
    (match rest.drop inner.length with
     | ')' :: _ => some (inner.length + 2, true)
     | _ => none)
  | c :: _ => if urlChar c then some (1, urlFinalChar c) else none

/-- Greedy token run of the URL body. -/
def urlTokens : Nat → List Char → List (Nat × Bool)
  | 0, _ => []
  | fuel+1, s =>
    match urlTokenAt s with
    | none => []
    | some (len, ok) => (len, ok) :: urlTokens fuel (s.drop len)

/-- Length of the URL body after backtracking: the greedy token run is
trimmed from the right until the last token may be final; none when no token
remains.  This is exactly what the star followed by the final alternation
yields under the backtracking semantics. -/
def tokensMatchLen : List (Nat × Bool) → Option Nat
  | [] => none
  | (l, ok) :: rest =>
    match tokensMatchLen rest with
    | some n => some (l + n)
    | none => if ok then some l else none

/-- Try the scheme alternatives in order; on a prefix whose body yields no
acceptable token the alternation backtracks to the next alternative (for
example a bare ftp-colon-slash-slash still matches via the ftp-dot
alternative). -/
def matchUrlAlts (s : List Char) : List (List Char) → Option Nat
  | [] => none
  | p :: ps =>
    if ciPrefixAt s p then
      let rest := s.drop p.length
      match tokensMatchLen (urlTokens rest.length rest) with
      | some tl => some (p.length + tl)
      | none => matchUrlAlts s ps
    else matchUrlAlts s ps

/-- Match URL_REGEXP at the head of s, returning the match length. -/
def matchUrlAt (s : List Char) : Option Nat :=
  matchUrlAlts s urlAltList

/-- Local part character class of EMAIL_REGEXP. -/
def emailLocalChar (c : Char) : Bool :=
  c.isAlphanum || ".!#$%&*+/=?^_~-".data.contains c || c = '|' ||
  c = Char.ofNat 39 || c = Char.ofNat 0x60 || c = Char.ofNat 0x7b || c = Char.ofNat 0x7d

/-- Head of the list is an ASCII letter or digit. -/
def headAlnum : List Char → Bool
  | c :: _ => c.isAlphanum
  | [] => false

/-- Letter, digit or hyphen. -/
def alnumHyphen (c : Char) : Bool :=
  c.isAlphanum || c = '-'

/-- Greedy length of the optional part of a domain label: the largest k at
most the argument such that k characters of letters, digits and hyphens are
followed by a letter or digit; returns that k plus one (the consumed
length), or none. -/
def labelExtra (rest : List Char) : Nat → Option Nat
  | 0 => if headAlnum rest then some 1 else none
  | k+1 =>
    if (rest.take (k+1)).all alnumHyphen && headAlnum (rest.drop (k+1)) then some (k+2)
    else labelExtra rest k

/-- Match one domain label of EMAIL_REGEXP at the head of s: a letter or
digit, optionally followed by up to 61 letters, digits or hyphens and a
final letter or digit (greedy). -/
def matchDomainAt (s : List Char) : Option Nat :=
  match s with
  | c :: rest => if c.isAlphanum then some (1 + (labelExtra rest 61).getD 0) else none
  | [] => none

/-- Greedy star over dot separated further labels. -/
def domainTail : Nat → List Char → Nat
  | 0, _ => 0
  | fuel+1, s =>
    match s with
    | '.' :: rest =>
      (match matchDomainAt rest with
       | some d => 1 + d + domainTail fuel (rest.drop d)
       | none => 0)
    | _ => 0

/-- Match EMAIL_REGEXP at the head of s: a maximal run of local characters
(at sign is not in the class, so the greedy plus never backtracks), an at
sign, a first domain label, then dot separated labels. -/
def matchEmailAt (s : List Char) : Option Nat :=
  let run := s.takeWhile emailLocalChar
  if run.isEmpty then none
  else
    match s.drop run.length with
    | '@' :: rest =>
      (match matchDomainAt rest with
       | some d => some (run.length + 1 + d + domainTail rest.length (rest.drop d))
       | none => none)
    | _ => none

/-- Scan for all matches of a matcher, as String.prototype.matchAll does
with a global regexp: try each position left to right, and resume after the
end of every match.  Every matcher used here returns positive lengths. -/
def scanMatches (matchAt : List Char → Option Nat) : Nat → List Char → List (List Char)
  | 0, _ => []
  | _+1, [] => []
  | fuel+1, s =>
    match matchAt s with
    | some len => s.take len :: scanMatches matchAt fuel (s.drop len)
    | none => scanMatches matchAt fuel (s.drop 1)

/-- Scan for all wiki link matches, keeping whole match and capture. -/
def scanWiki : Nat → List Char → List (List Char × List Char)
  | 0, _ => []
  | _+1, [] => []
  | fuel+1, s =>
    match matchWikiAt s with
    | some (len, inner) => (s.take len, inner) :: scanWiki fuel (s.drop len)
    | none => scanWiki fuel (s.drop 1)

/-- All wiki link matches of a line. -/
def wikiMatches (s : List Char) : List (List Char × List Char) :=
  scanWiki s.length s

/-- All URL matches of a line. -/
def urlMatches (s : List Char) : List (List Char) :=
  scanMatches matchUrlAt s.length s

/-- All email matches of a line. -/
def emailMatches (s : List Char) : List (List Char) :=
  scanMatches matchEmailAt s.length s

/-- URL_REGEXP.test: does the pattern match anywhere in s.  Within one call
of htmlToText the regexp lastIndex is zero whenever test is reached, since a
successful test is immediately followed by a return. -/
def urlTestL (s : List Char) : Bool :=
  !(urlMatches s).isEmpty

/-! ## IMAGE_REGEXP and isSpecialtyUrl -/

/-- The raster image extensions of IMAGE_REGEXP. -/
def imageExts : List String :=
  ["jpg", "jpeg", "png", "gif", "webp", "apng", "avif", "jfif", "pjpeg", "pjp"]

/-- JavaScript regexp line terminators (not matched by the dot). -/
def lineTerm (c : Char) : Bool :=
  c = '\n' || c.toNat = 13 || c.toNat = 0x2028 || c.toNat = 0x2029

/-- Does the remainder consist exactly of a dot and one of the image
extensions (case folded, as the i flag requires, and anchored at the end by
the dollar of the pattern)? -/
def extTailMatch (t : List Char) : Bool :=
  imageExts.any (fun e => t.map Char.toLower == '.' :: e.data)

/-- Does IMAGE_REGEXP match starting exactly here: a run of non line
terminator characters (the greedy dot star), then a dot and an extension
reaching the end of the string? -/
def imageMatchFrom (t : List Char) : Bool :=
  (List.range (t.length + 1)).any
    (fun d => (t.take d).all (fun c => !lineTerm c) && extTailMatch (t.drop d))

/-- IMAGE_REGEXP.test: the pattern may match starting at any position. -/
def imageRegexpTest (s : List Char) : Bool :=
  (List.range (s.length + 1)).any (fun i => imageMatchFrom (s.drop i))

/-- Embeds isSpecialtyUrl: IMAGE_REGEXP.test(url). -/
def isSpecialtyUrl (url : String) : Bool :=
  imageRegexpTest url.data

/-- Embeds parseSpecialtyUrl: an image embed when IMAGE_REGEXP matches,
otherwise the empty string. -/
def parseSpecialtyUrlL (url : List Char) : List Char :=
  if imageRegexpTest url then "<img src=\"".data ++ url ++ "\">".data else []

/-! ## Encoding: textToHtml -/

/-- Render one wiki link match as its hyperlink.  Embeds the body of the
loop in parseWikiLinks: the capture is split at pipes; with an alias the
destination is the encoded second part and the text the first part,
otherwise both come from the whole capture. -/
def renderWikiHtml (inner : List Char) : List Char :=
  match splitOnPipe inner with
  | a :: b :: _ =>
    "<a href=\"/".data ++ encodeURIComponentL b ++ "\">".data ++ a ++ "</a>".data
  | _ =>
    "<a href=\"/".data ++ encodeURIComponentL inner ++ "\">".data ++ inner ++ "</a>".data

/-- One iteration of the parseWikiLinks loop: replace every occurrence of
the matched text (String.prototype.replaceAll). -/
def wikiStep (acc : List Char) (m : List Char × List Char) : List Char :=
  replaceAllJS acc m.1 (renderWikiHtml m.2)

/-- Embeds parseWikiLinks: all matches are taken from the original text,
then folded over the accumulating string. -/
def parseWikiLinksL (text : List Char) : List Char :=
  (wikiMatches text).foldl wikiStep text

/-- Render one URL match: an image embed for specialty URLs, otherwise a
hyperlink whose destination and text are the literal URL. -/
def urlStep (acc : List Char) (url : List Char) : List Char :=
  if imageRegexpTest url then replaceFirstJS acc url (parseSpecialtyUrlL url)
  else replaceFirstJS acc url ("<a href=\"".data ++ url ++ "\">".data ++ url ++ "</a>".data)

/-- Embeds parseURLs: matches are taken from the original text
(String.prototype.matchAll captures the subject at call time), each replaced
at its first occurrence in the current string. -/
def parseURLsL (text : List Char) : List Char :=
  (urlMatches text).foldl urlStep text

/-- One iteration of the parseEmails loop. -/
def emailStep (acc : List Char) (email : List Char) : List Char :=
  replaceFirstJS acc email
    ("<a href=\"mailto:".data ++ email ++ "\">".data ++ email ++ "</a>".data)

/-- Embeds parseEmails. -/
def parseEmailsL (text : List Char) : List Char :=
  (emailMatches text).foldl emailStep text

/-- Embeds textToHtml: split at newlines, run the three span passes in
order on each line, join with the line break marker. -/
def textToHtmlL (t : List Char) : List Char :=
  joinWithBr ((splitOnNl t).map (fun l => parseEmailsL (parseURLsL (parseWikiLinksL l))))

/-- String level wrapper of parseWikiLinksL. -/
def parseWikiLinks (text : String) : String :=
  String.mk (parseWikiLinksL text.data)

/-- String level wrapper of parseURLsL. -/
def parseURLs (text : String) : String :=
  String.mk (parseURLsL text.data)

/-- String level wrapper of parseEmailsL. -/
def parseEmails (text : String) : String :=
  String.mk (parseEmailsL text.data)

/-- String level wrapper of textToHtmlL. -/
def textToHtml (text : String) : String :=
  String.mk (textToHtmlL text.data)

/-! ## Decoding: the presentation tree and htmlToText -/

/-- A node of the presentation tree: text, a line break, a hyperlink element
with its href attribute and inner text, or an image element with its source. -/
inductive PNode where
  | textNode (s : List Char)
  | brNode
  | anchorNode (href inner : List Char)
  | imgNode (src : List Char)
deriving DecidableEq, Repr

/-- Modelled from the spec: the presentation tree consumer of section 6 uses
an HTML tree parser supplied by the hosting environment; that parser is not
part of the sources.  This definition parses exactly the element shapes the
encoder emits (anchor, image, line break), leaving everything else as
character text. -/
def parseHtmlAux : Nat → List Char → List PNode
  | 0, s => if s.isEmpty then [] else [.textNode s]
  | _+1, [] => []
  | fuel+1, s =>
    if isPrefixL "<br>".data s then .brNode :: parseHtmlAux fuel (s.drop 4)
    else if isPrefixL "<a href=\"".data s then
      (match splitAtOcc (s.drop 9).length (s.drop 9) "\">".data with
       | some (href, r2) =>
         (match splitAtOcc r2.length r2 "</a>".data with
          | some (inner, r3) => .anchorNode href inner :: parseHtmlAux fuel r3
          | none => [.textNode s])
       | none => [.textNode s])
    else if isPrefixL "<img src=\"".data s then
      (match splitAtOcc (s.drop 10).length (s.drop 10) "\">".data with
       | some (src, r2) => .imgNode src :: parseHtmlAux fuel r2
       | none => [.textNode s])
    else
      (match s with
       | c :: rest => .textNode [c] :: parseHtmlAux fuel rest
       | [] => [])

/-- Parse the encoder output into presentation nodes. -/
def parseHtmlNodes (s : List Char) : List PNode :=
  parseHtmlAux s.length s

/-- Modelled from the spec: the DOM resolves the href property of an anchor
against the base of the document.  Hrefs carrying a scheme (a colon before
any slash, question mark or hash) stay as they are; every other href is
resolved against a document loaded from the root of an https origin. -/
def resolveHref (href : List Char) : List Char :=
  let beforeSep := href.takeWhile (fun c => c ≠ '/' && c ≠ '?' && c ≠ '#')
  if beforeSep.contains ':' then href
  else
    "https://wiki.example".data ++ (match href with
      | '/' :: _ => href
      | _ => '/' :: href)

/-- Embeds anchor.href.includes with the mailto scheme text. -/
def hrefIncludesMailto (href : List Char) : Bool :=
  containsSub (resolveHref href) "mailto:".data

/-- Strip a query string or fragment. -/
def stripQueryFrag (p : List Char) : List Char :=
  p.takeWhile (fun c => c ≠ '?' && c ≠ '#')

/-- Modelled from the spec: the DOM pathname property of an anchor.  For a
hierarchical URL it is the part of the resolved href after the authority up
to any query or fragment (or a bare slash when the path is empty); for an
opaque scheme it is everything after the colon. -/
def anchorPathnameL (href : List Char) : List Char :=
  let abs := resolveHref href
  match splitAtOcc abs.length abs "://".data with
  | some (_, rest) =>
    let afterHost := rest.dropWhile (fun c => c ≠ '/' && c ≠ '?' && c ≠ '#')
    stripQueryFrag (match afterHost with
      | '/' :: _ => afterHost
      | _ => "/".data)
  | none =>
    (match splitAtOcc abs.length abs ":".data with
     | some (_, rest) => stripQueryFrag rest
     | none => stripQueryFrag abs)

/-- Wrap decoded link text in wiki brackets. -/
def wikiWrap (t : List Char) : List Char :=
  "[[".data ++ t ++ "]]".data

/-- Wrap decoded link text and path in aliased wiki brackets. -/
def wikiAliasWrap (t p : List Char) : List Char :=
  "[[".data ++ t ++ "|".data ++ p ++ "]]".data

/-- Embeds the anchor loop of htmlToText.  querySelectorAll returns a static
list, so replacements do not change the iteration.  A mailto anchor is
replaced by its inner text and the loop continues.  Otherwise the path is the
percent decoded pathname without its leading separator (a URIError, none,
escapes); when the inner text matches URL_REGEXP, or equals the path, the
anchor is replaced and the enclosing function returns at once (the boolean
records that early return); only the aliased case continues the loop. -/
def processAnchors : Nat → List PNode → Option (List PNode × Bool)
  | 0, ns => some (ns, false)
  | _+1, [] => some ([], false)
  | fuel+1, n :: rest =>
    match n with
    | .anchorNode href inner =>
      if hrefIncludesMailto href then
        match processAnchors fuel rest with
        | some (ns, h) => some (.textNode inner :: ns, h)
        | none => none
      else
        (match decodeURIComponentL (anchorPathnameL href) with
         | none => none
         | some decoded =>
           let path := decoded.drop 1
           if urlTestL inner then some (.textNode inner :: rest, true)
           else if path = inner then some (.textNode (wikiWrap inner) :: rest, true)
           else
             match processAnchors fuel rest with
             | some (ns, h) => some (.textNode (wikiAliasWrap inner path) :: ns, h)
             | none => none)
    | other =>
      match processAnchors fuel rest with
      | some (ns, h) => some (other :: ns, h)
      | none => none

/-- Embeds the image loop of htmlToText: every image element is replaced by
its bare source URL. -/
def processImages (ns : List PNode) : List PNode :=
  ns.map (fun n => match n with
    | .imgNode src => .textNode src
    | other => other)

/-- Embeds htmlToText: walk the anchors; when the walk returned early the
image loop is never reached, otherwise replace every image element. -/
def htmlToText (ns : List PNode) : Option (List PNode) :=
  match processAnchors ns.length ns with
  | some (ns2, halted) => some (if halted then ns2 else processImages ns2)
  | none => none

/-- Modelled from the spec: the plain text a presentation tree renders as
(the innerText read back after htmlToText rewrites the tree): text nodes
verbatim, a line break as a newline, an anchor as its inner text, an image
as nothing. -/
def toPlainText (ns : List PNode) : List Char :=
  (ns.map (fun n => match n with
    | .textNode s => s
    | .brNode => "\n".data
    | .anchorNode _ inner => inner
    | .imgNode _ => [])).flatten

/-- Is a node a hyperlink element? -/
def isAnchorNode : PNode → Bool
  | .anchorNode _ _ => true
  | _ => false

/-! ## Save coordinator (ComponentRegister) -/

/-- The three states of the save coordinator chart. -/
inductive MachineState where
  | idle
  | submitting
  | error
deriving DecidableEq, Repr

/-- The events of the save coordinator chart. -/
inductive MEvent where
  | submittingEv
  | completeEv
  | errorEv
  | resetEv
deriving DecidableEq, Repr

/-- Modelled from the spec: the StateMachine class comes from
static/mods/utils.js, which is not among the sources.  Per section 4.3 of the
spec and the stateChart literal of the coordinator module, the transitions
are idle on SUBMITTING to submitting, submitting on COMPLETE to idle,
submitting on ERROR to error, error on RESET to idle, and no event not
listed for a state changes that state. -/
def send : MachineState → MEvent → MachineState
  | .idle, .submittingEv => .submitting
  | .submitting, .completeEv => .idle
  | .submitting, .errorEv => .error
  | .error, .resetEv => .idle
  | s, _ => s

/-- An editable region component: id and content. -/
structure Component where
  id : String
  content : String
deriving DecidableEq, Repr

/-- A registry value.  REGISTER stores components; the fallthrough from the
UNREGISTER case stores the raw id string (reading the id property of a
string yields undefined, so its key becomes the string undefined). -/
inductive RegValue where
  | comp (c : Component)
  | str (s : String)
deriving DecidableEq, Repr

/-- The registry, a JavaScript object keyed by strings.  JavaScript objects
enumerate non integer string keys in insertion order, overwriting keeps the
original position, and delete plus re-add moves a key to the end; every id
the coordinator uses (title, tag, metadata, block-N, undefined) is a non
integer key, so an insertion ordered association list is a faithful model. -/
abbrev Registry := List (String × RegValue)

/-- Association lookup (property read). -/
def lookupReg : Registry → String → Option RegValue
  | [], _ => none
  | (k2, v) :: rest, k => if k2 = k then some v else lookupReg rest k

/-- Property write: overwrite in place when the key exists, append when it
does not. -/
def regInsert : Registry → String → RegValue → Registry
  | [], k, v => [(k, v)]
  | (k2, v2) :: rest, k, v =>
    if k2 = k then (k2, v) :: rest else (k2, v2) :: regInsert rest k v

/-- The property key the register method uses: the id field of a component;
for a raw string the id read yields undefined, which stringifies to the key
undefined. -/
def jsIdOf : RegValue → String
  | .comp c => c.id
  | .str _ => "undefined"

/-- Embeds register: store the received value under the id read from it. -/
def register (reg : Registry) (v : RegValue) : Registry :=
  regInsert reg (jsIdOf v) v

/-- Embeds unregister: delete the property; no error when absent. -/
def unregister : Registry → String → Registry
  | [], _ => []
  | (k2, v) :: rest, k =>
    if k2 = k then unregister rest k else (k2, v) :: unregister rest k

/-- Embeds getType: the values whose key contains the given text, in key
enumeration order. -/
def getType (reg : Registry) (t : String) : List RegValue :=
  (reg.filter (fun e => containsSub e.1.data t.data)).map Prod.snd

/-- Content read of a registry value: reading the content property of a raw
string yields undefined (none), without throwing. -/
def contentOf : RegValue → Option String
  | .comp c => some c.content
  | .str _ => none

/-- The document snapshot sent to the persistence endpoint.  Fields read
from raw string values are undefined, hence the Option typing. -/
structure Snapshot where
  body : String
  title : Option String
  old_title : String
  tags : Option String
  metadata : Option String
deriving DecidableEq, Repr

/-- Build the snapshot from the registry, given the three values read for
title, tag and metadata.  The body joins the contents of the block
components in registry order (undefined contents join as empty, as
Array.prototype.join renders undefined). -/
def buildSnapshot (reg : Registry) (curTitle : String)
    (tv gv mv : RegValue) : Snapshot :=
  { body := String.intercalate "\n"
      ((getType reg "block").map (fun v => (contentOf v).getD ""))
    title := contentOf tv
    old_title := curTitle
    tags := contentOf gv
    metadata := contentOf mv }

/-- Snapshot assembly of savePage: reading content on a missing title, tag
or metadata entry throws a TypeError, modelled as none. -/
def trySnapshot (reg : Registry) (curTitle : String) : Option Snapshot :=
  match lookupReg reg "title" with
  | none => none
  | some tv =>
    match lookupReg reg "tag" with
    | none => none
    | some gv =>
      match lookupReg reg "metadata" with
      | none => none
      | some mv => some (buildSnapshot reg curTitle tv gv mv)

/-- The coordinator instance: its private state machine, its registry and
the externally tracked current title at load time (the CURRENT_TITLE global
used for old_title). -/
structure ComponentRegister where
  machine : MachineState
  components : Registry
  currentTitle : String
deriving DecidableEq, Repr

/-- The partial payload a SAVE message may carry. -/
structure SavePayload where
  id : String
  content : String
deriving DecidableEq, Repr

/-- A cross context message, tagged by type. -/
inductive Msg where
  | save (p : Option SavePayload)
  | registerMsg (c : Component)
  | unregisterMsg (id : String)
deriving DecidableEq, Repr

/-- Result of handling one message: the updated coordinator, the outbound
write issued (if any), and whether a JavaScript exception escaped. -/
structure HandleResult where
  coord : ComponentRegister
  write : Option Snapshot
  thrown : Bool
deriving DecidableEq, Repr

/-- Overwrite the content of the component stored under a key; used for the
merge step of savePage (only reached when the entry is a component). -/
def setContent : Registry → String → String → Registry
  | [], _, _ => []
  | (k2, v) :: rest, k, newC =>
    if k2 = k then
      (k2, match v with
           | .comp c0 => .comp { c0 with content := newC }
           | .str s => .str s) :: rest
    else (k2, v) :: setContent rest k newC

/-- Embeds savePage.  The machine is sent SUBMITTING first.  With a payload
the merge writes the content property of the registry entry: a missing entry
throws a TypeError (property set on undefined), and a raw string entry also
throws in strict module code; mutations before the throw persist.  Then the
snapshot is assembled (which can throw on a missing title, tag or metadata
entry) and the single outbound write issued. -/
def savePage (c : ComponentRegister) (p : Option SavePayload) : HandleResult :=
  let c1 : ComponentRegister := { c with machine := send c.machine .submittingEv }
  match p with
  | none =>
    (match trySnapshot c1.components c1.currentTitle with
     | some snap => { coord := c1, write := some snap, thrown := false }
     | none => { coord := c1, write := none, thrown := true })
  | some pd =>
    match lookupReg c1.components pd.id with
    | some (.comp _) =>
      let c2 : ComponentRegister :=
        { c1 with components := setContent c1.components pd.id pd.content }
      (match trySnapshot c2.components c2.currentTitle with
       | some snap => { coord := c2, write := some snap, thrown := false }
       | none => { coord := c2, write := none, thrown := true })
    | _ => { coord := c1, write := none, thrown := true }

/-- Embeds handleMessage.  SAVE acts only in the idle state (and its case
breaks).  The UNREGISTER case has no break, so it falls through into the
REGISTER case with the same message data: after deleting the id the register
method runs on the raw id string, adding the key undefined.  REGISTER
inserts the component. -/
def handleMessage (c : ComponentRegister) (m : Msg) : HandleResult :=
  match m with
  | .save p =>
    if c.machine = .idle then savePage c p
    else { coord := c, write := none, thrown := false }
  | .unregisterMsg id =>
    { coord := { c with components := register (unregister c.components id) (.str id) }
      write := none
      thrown := false }
  | .registerMsg comp =>
    { coord := { c with components := register c.components (.comp comp) }
      write := none
      thrown := false }

/-- Outcome of the outbound write: a response with a status code, or a
network failure (the fetch promise rejects). -/
inductive WriteOutcome where
  | response (status : Nat)
  | networkError
deriving DecidableEq, Repr

/-- Embeds the fetch continuation of savePage: a response below status 400
updates the MRU list (external) and sends COMPLETE; a response at 400 or
above matches no branch of the handler and does nothing; a rejection sends
ERROR. -/
def handleWriteOutcome (c : ComponentRegister) (o : WriteOutcome) : ComponentRegister :=
  match o with
  | .response status =>
    if status < 400 then { c with machine := send c.machine .completeEv } else c
  | .networkError => { c with machine := send c.machine .errorEv }

/-- Is a lookup result a component (the only registry values on which the
merge of savePage does not throw)? -/
def isCompVal : Option RegValue → Bool
  | some (.comp _) => true
  | _ => false

/-- The registry has entries under the three fixed keys savePage reads. -/
def hasKeyVals (c : ComponentRegister) : Bool :=
  (lookupReg c.components "title").isSome &&
  (lookupReg c.components "tag").isSome &&
  (lookupReg c.components "metadata").isSome

/-- Sufficient condition for a message to be handled without a JavaScript
exception: a SAVE payload must name a registered component and the registry
must carry title, tag and metadata entries; other messages never throw. -/
def msgSafe (c : ComponentRegister) : Msg → Bool
  | .save (some pd) => isCompVal (lookupReg c.components pd.id) && hasKeyVals c
  | .save none => hasKeyVals c
  | _ => true

/-! ## Specification side definition for the image claim -/

/-- Definition following the words of the specification (section 4.1) for
comparison with the source: the path of the URL, read as the part before any
query string or fragment, ends case insensitively with one of the image
extensions. -/
def specPathIsImage (url : String) : Bool :=
  imageExts.any (fun e =>
    ('.' :: e.data).isSuffixOf
      ((url.data.takeWhile (fun c => c ≠ '?' && c ≠ '#')).map Char.toLower))

/-! ## Concrete fixtures used by the witnesses and counterexamples -/

/-- Title component fixture. -/
def compTitle : Component := { id := "title", content := "My Page" }

/-- Tag component fixture. -/
def compTag : Component := { id := "tag", content := "tag-a" }

/-- Metadata component fixture. -/
def compMeta : Component := { id := "metadata", content := "meta" }

/-- First block fixture. -/
def blockOne : Component := { id := "block-1", content := "one" }

/-- Second block fixture. -/
def blockTwo : Component := { id := "block-2", content := "two" }

/-- Third block fixture. -/
def blockThree : Component := { id := "block-3", content := "three" }

/-- Replacement content for the second block. -/
def blockTwoNew : Component := { id := "block-2", content := "two-new" }

/-- A well formed registry with the three fixed components and one block. -/
def regGood : Registry :=
  [("title", .comp compTitle), ("tag", .comp compTag),
   ("metadata", .comp compMeta), ("block-1", .comp blockOne)]

/-- An idle coordinator over the well formed registry. -/
def coordIdle : ComponentRegister :=
  { machine := .idle, components := regGood, currentTitle := "Old Title" }

/-- The same coordinator while a write is in flight. -/
def coordSubmitting : ComponentRegister :=
  { machine := .submitting, components := regGood, currentTitle := "Old Title" }

/-- A coordinator holding only one block, used for the UNREGISTER case. -/
def coordOneBlock : ComponentRegister :=
  { machine := .idle, components := [("block-1", .comp blockOne)], currentTitle := "T" }

/-- Round trip input with two bare wiki links on separate lines. -/
def c1Input : String := "[[a]]\n[[b]]"

/-- A URL whose text contains an at sign. -/
def c6Input : String := "https://a@b.com"

/-- A line with the same wiki link twice. -/
def c8WikiLine : String := "[[a]] [[a]]"

/-- A line with the same URL twice. -/
def c8UrlLine : String := "https://x.im https://x.im"

/-- An image URL carrying a query string. -/
def c7Url : String := "https://x.com/a.png?q=1"

/-- The hyperlink the encoder produces for the bare wiki link a. -/
def wikiAnchorA : String := "<a href=\"/a\">a</a>"

/-! ## Helper lemmas about the registry and savePage -/

theorem lookupReg_setContent_isSome (reg : Registry) (k newC k2 : String) :
    (lookupReg (setContent reg k newC) k2).isSome = (lookupReg reg k2).isSome := by
  induction reg with
  | nil => rfl
  | cons e rest ih =>
    obtain ⟨k3, v⟩ := e
    by_cases h : k3 = k
    · subst h
      simp only [setContent, if_pos rfl]
      by_cases h2 : k3 = k2 <;> simp [lookupReg, h2]
    · simp only [setContent, if_neg h]
      by_cases h2 : k3 = k2 <;> simp [lookupReg, h2, ih]

theorem lookupReg_setContent_self (reg : Registry) (k newC : String) (c0 : Component)
    (h : lookupReg reg k = some (.comp c0)) :
    lookupReg (setContent reg k newC) k = some (.comp { c0 with content := newC }) := by
  induction reg with
  | nil => simp [lookupReg] at h
  | cons e rest ih =>
    obtain ⟨k3, v⟩ := e
    by_cases h2 : k3 = k
    · rw [lookupReg, if_pos h2] at h
      cases h
      simp only [setContent, if_pos h2]
      simp [lookupReg, h2]
    · rw [lookupReg, if_neg h2] at h
      simp only [setContent, if_neg h2]
      simp [lookupReg, h2, ih h]

theorem trySnapshot_isSome (reg : Registry) (cur : String)
    (ht : (lookupReg reg "title").isSome = true)
    (hg : (lookupReg reg "tag").isSome = true)
    (hm : (lookupReg reg "metadata").isSome = true) :
    (trySnapshot reg cur).isSome = true := by
  obtain ⟨tv, htv⟩ := Option.isSome_iff_exists.mp ht
  obtain ⟨gv, hgv⟩ := Option.isSome_iff_exists.mp hg
  obtain ⟨mv, hmv⟩ := Option.isSome_iff_exists.mp hm
  unfold trySnapshot
  rw [htv, hgv, hmv]
  rfl

theorem savePage_machine (c : ComponentRegister) (p : Option SavePayload) :
    (savePage c p).coord.machine = send c.machine .submittingEv := by
  unfold savePage
  cases p with
  | none =>
    cases h : trySnapshot c.components c.currentTitle <;> simp [h]
  | some pd =>
    cases h : lookupReg c.components pd.id with
    | none => simp [h]
    | some v =>
      cases v with
      | comp c0 =>
        cases h2 : trySnapshot (setContent c.components pd.id pd.content) c.currentTitle <;>
          simp [h, h2]
      | str s => simp [h]

theorem savePage_ok (c : ComponentRegister) (p : Option SavePayload)
    (hsafe : msgSafe c (.save p) = true) :
    (savePage c p).thrown = false ∧ (savePage c p).write.isSome = true := by
  cases p with
  | none =>
    have hk : hasKeyVals c = true := hsafe
    rw [hasKeyVals, Bool.and_eq_true, Bool.and_eq_true] at hk
    obtain ⟨⟨ht, hg⟩, hm⟩ := hk
    obtain ⟨snap, hsnap⟩ := Option.isSome_iff_exists.mp
      (trySnapshot_isSome c.components c.currentTitle ht hg hm)
    unfold savePage
    simp [hsnap]
  | some pd =>
    rw [msgSafe, Bool.and_eq_true] at hsafe
    obtain ⟨hcomp, hk⟩ := hsafe
    rw [hasKeyVals, Bool.and_eq_true, Bool.and_eq_true] at hk
    obtain ⟨⟨ht, hg⟩, hm⟩ := hk
    have hlook : ∃ c0, lookupReg c.components pd.id = some (.comp c0) := by
      cases hl : lookupReg c.components pd.id with
      | none => rw [hl] at hcomp; simp [isCompVal] at hcomp
      | some v =>
        cases v with
        | comp c0 => exact ⟨c0, rfl⟩
        | str s => rw [hl] at hcomp; simp [isCompVal] at hcomp
    obtain ⟨c0, hl⟩ := hlook
    have ht2 : (lookupReg (setContent c.components pd.id pd.content) "title").isSome = true := by
      rw [lookupReg_setContent_isSome]; exact ht
    have hg2 : (lookupReg (setContent c.components pd.id pd.content) "tag").isSome = true := by
      rw [lookupReg_setContent_isSome]; exact hg
    have hm2 : (lookupReg (setContent c.components pd.id pd.content) "metadata").isSome = true := by
      rw [lookupReg_setContent_isSome]; exact hm
    obtain ⟨snap, hsnap⟩ := Option.isSome_iff_exists.mp
      (trySnapshot_isSome (setContent c.components pd.id pd.content) c.currentTitle ht2 hg2 hm2)
    unfold savePage
    simp [hl, hsnap]

theorem handleWriteOutcome_components (c : ComponentRegister) (o : WriteOutcome) :
    (handleWriteOutcome c o).components = c.components := by
  cases o with
  | response status =>
    by_cases h : status < 400 <;> simp [handleWriteOutcome, h]
  | networkError => rfl

/-! ## Claim theorems: the save coordinator -/

/-- C2: the claim says a write completing with status at least 400 is
handled like a network failure, transitioning submitting to error.  The code
disagrees: the response handler only matches status below 400, so a
rejected write leaves the machine in submitting (no further save is ever
accepted, since RESET only acts in the error state), while only the network
failure path reaches the error state. -/
theorem c2_rejected_write_leaves_submitting :
    (handleWriteOutcome coordSubmitting (.response 400)).machine = .submitting ∧
    handleWriteOutcome coordSubmitting (.response 400) = coordSubmitting ∧
    (handleWriteOutcome coordSubmitting .networkError).machine = .error :=
  ⟨rfl, rfl, rfl⟩

/-- C4: the claim says handling UNREGISTER only removes the entry.  The code
disagrees: the UNREGISTER case of the switch has no break and falls through
into REGISTER with the raw id string, adding the key undefined; on a
registry holding only block-1, unregistering block-1 leaves the registry
with exactly the new key undefined instead of empty. -/
theorem c4_unregister_adds_undefined_key :
    (handleMessage coordOneBlock (.unregisterMsg "block-1")).coord.components
      = [("undefined", .str "block-1")] ∧
    (handleMessage coordOneBlock (.unregisterMsg "block-1")).coord.components ≠ [] :=
  ⟨rfl, by decide⟩

/-- C3: a SAVE is acted on only in the idle state.  From an idle coordinator
with a well formed registry, the first SAVE issues exactly one outbound
write and moves the machine to submitting; a second SAVE arriving before the
write outcome is dropped: no write, no exception, and the coordinator
(machine and registry) is returned unchanged. -/
theorem c3_second_save_dropped (c : ComponentRegister) (p1 p2 : Option SavePayload)
    (hidle : c.machine = .idle) (hsafe : msgSafe c (.save p1) = true) :
    (handleMessage c (.save p1)).write.isSome = true ∧
    (handleMessage c (.save p1)).coord.machine = .submitting ∧
    handleMessage (handleMessage c (.save p1)).coord (.save p2) =
      { coord := (handleMessage c (.save p1)).coord, write := none, thrown := false } := by
  have h1 : handleMessage c (.save p1) = savePage c p1 := by
    simp only [handleMessage, if_pos hidle]
  have hm : (savePage c p1).coord.machine = .submitting := by
    rw [savePage_machine, hidle]; rfl
  have hne : ¬ (savePage c p1).coord.machine = .idle := by
    rw [hm]; intro hc; cases hc
  rw [h1]
  exact ⟨(savePage_ok c p1 hsafe).2, hm, by simp only [handleMessage, if_neg hne]⟩

/-- Witness for C3 at a concrete idle coordinator. -/
theorem c3_second_save_dropped_witness :
    coordIdle.machine = .idle ∧ msgSafe coordIdle (.save none) = true ∧
    ((handleMessage coordIdle (.save none)).write.isSome = true ∧
     (handleMessage coordIdle (.save none)).coord.machine = .submitting ∧
     handleMessage (handleMessage coordIdle (.save none)).coord (.save none) =
       { coord := (handleMessage coordIdle (.save none)).coord, write := none,
         thrown := false }) :=
  ⟨rfl, by decide, c3_second_save_dropped coordIdle none none rfl (by decide)⟩

/-- C5 counterexample: the claim says no exception crosses the message
boundary.  The code disagrees: a SAVE handled in idle whose payload names an
id absent from the registry writes the content property of undefined, a
TypeError that escapes handleMessage (after the machine was already sent
SUBMITTING). -/
theorem c5_unknown_save_id_throws :
    (handleMessage coordIdle (.save (some { id := "ghost", content := "x" }))).thrown
      = true := by decide

/-- C5 amended: no exception escapes the handler provided every SAVE payload
names a registered component and the registry carries title, tag and
metadata entries; REGISTER and UNREGISTER messages never throw. -/
theorem c5_no_exception_when_safe (c : ComponentRegister) (m : Msg)
    (hsafe : msgSafe c m = true) :
    (handleMessage c m).thrown = false := by
  cases m with
  | save p =>
    by_cases h : c.machine = .idle
    · simp only [handleMessage, if_pos h]
      exact (savePage_ok c p hsafe).1
    · simp only [handleMessage, if_neg h]
  | registerMsg comp => rfl
  | unregisterMsg id => rfl

/-- Witness for the amended C5 at a concrete safe SAVE. -/
theorem c5_no_exception_when_safe_witness :
    msgSafe coordIdle (.save (some { id := "block-1", content := "new" })) = true ∧
    (handleMessage coordIdle
      (.save (some { id := "block-1", content := "new" }))).thrown = false :=
  ⟨by decide, c5_no_exception_when_safe coordIdle
    (.save (some { id := "block-1", content := "new" })) (by decide)⟩

theorem regInsert_keys_of_mem (reg : Registry) (k : String) (v : RegValue)
    (h : (lookupReg reg k).isSome = true) :
    (regInsert reg k v).map Prod.fst = reg.map Prod.fst := by
  induction reg with
  | nil => simp [lookupReg] at h
  | cons e rest ih =>
    obtain ⟨k2, v2⟩ := e
    by_cases h2 : k2 = k
    · simp [regInsert, h2]
    · rw [lookupReg, if_neg h2] at h
      simp [regInsert, h2, ih h]

theorem lookupReg_regInsert_self (reg : Registry) (k : String) (v : RegValue) :
    lookupReg (regInsert reg k v) k = some v := by
  induction reg with
  | nil => simp [regInsert, lookupReg]
  | cons e rest ih =>
    obtain ⟨k2, v2⟩ := e
    by_cases h2 : k2 = k
    · simp [regInsert, h2, lookupReg]
    · simp [regInsert, h2, lookupReg, ih]

/-- C9: registering a component whose id is already present overwrites the
stored value while leaving the key enumeration (and hence the registry
order) unchanged, and getType collects matching components in that order;
in particular registering block-1, block-2, block-3 and then re-registering
block-2 with new content yields the body assembly order
block-1, block-2, block-3 with the new content in place. -/
theorem c9_register_preserves_order (reg : Registry) (comp : Component)
    (h : (lookupReg reg comp.id).isSome = true) :
    (register reg (.comp comp)).map Prod.fst = reg.map Prod.fst ∧
    lookupReg (register reg (.comp comp)) comp.id = some (.comp comp) ∧
    getType (register (register (register (register [] (.comp blockOne))
        (.comp blockTwo)) (.comp blockThree)) (.comp blockTwoNew)) "block"
      = [.comp blockOne, .comp blockTwoNew, .comp blockThree] :=
  ⟨regInsert_keys_of_mem reg comp.id (.comp comp) h,
   lookupReg_regInsert_self reg comp.id (.comp comp),
   by decide⟩

/-- Witness for C9: re-registering the title component of the concrete
registry. -/
theorem c9_register_preserves_order_witness :
    (lookupReg regGood (Component.mk "title" "renamed").id).isSome = true ∧
    ((register regGood (.comp (Component.mk "title" "renamed"))).map Prod.fst
        = regGood.map Prod.fst ∧
     lookupReg (register regGood (.comp (Component.mk "title" "renamed")))
        (Component.mk "title" "renamed").id
        = some (.comp (Component.mk "title" "renamed")) ∧
     getType (register (register (register (register [] (.comp blockOne))
        (.comp blockTwo)) (.comp blockThree)) (.comp blockTwoNew)) "block"
      = [.comp blockOne, .comp blockTwoNew, .comp blockThree]) :=
  ⟨by decide, c9_register_preserves_order regGood (Component.mk "title" "renamed") (by decide)⟩

/-- C10: a SAVE with a payload handled in idle for a registered id merges
the payload content into the registry entry before the write is issued (the
snapshot is assembled from the merged registry), and the merged content
stays in the registry under every write outcome, since the response and
rejection handlers only touch the state machine. -/
theorem c10_merge_persists (c : ComponentRegister) (pd : SavePayload) (c0 : Component)
    (hidle : c.machine = .idle)
    (hl : lookupReg c.components pd.id = some (.comp c0))
    (hk : hasKeyVals c = true) :
    lookupReg (handleMessage c (.save (some pd))).coord.components pd.id
      = some (.comp { c0 with content := pd.content }) ∧
    (handleMessage c (.save (some pd))).coord.components
      = setContent c.components pd.id pd.content ∧
    (handleMessage c (.save (some pd))).write
      = trySnapshot (setContent c.components pd.id pd.content) c.currentTitle ∧
    ((handleMessage c (.save (some pd))).write).isSome = true ∧
    ∀ o : WriteOutcome,
      (handleWriteOutcome (handleMessage c (.save (some pd))).coord o).components
        = (handleMessage c (.save (some pd))).coord.components := by
  have h1 : handleMessage c (.save (some pd)) = savePage c (some pd) := by
    simp only [handleMessage, if_pos hidle]
  rw [hasKeyVals, Bool.and_eq_true, Bool.and_eq_true] at hk
  obtain ⟨⟨ht, hg⟩, hm⟩ := hk
  have hts : (trySnapshot (setContent c.components pd.id pd.content)
      c.currentTitle).isSome = true :=
    trySnapshot_isSome _ _
      (by rw [lookupReg_setContent_isSome]; exact ht)
      (by rw [lookupReg_setContent_isSome]; exact hg)
      (by rw [lookupReg_setContent_isSome]; exact hm)
  obtain ⟨snap, hsnap⟩ := Option.isSome_iff_exists.mp hts
  have h2 : savePage c (some pd) =
      { coord := { machine := send c.machine .submittingEv
                   components := setContent c.components pd.id pd.content
                   currentTitle := c.currentTitle }
        write := some snap
        thrown := false } := by
    unfold savePage
    simp [hl, hsnap]
  rw [h1, h2]
  exact ⟨lookupReg_setContent_self c.components pd.id pd.content c0 hl,
         rfl, hsnap.symm, rfl,
         fun o => handleWriteOutcome_components _ o⟩

/-- Witness for C10 at the concrete idle coordinator, merging new content
into block-1 and checking persistence across a rejected write outcome. -/
theorem c10_merge_persists_witness :
    lookupReg (handleMessage coordIdle
        (.save (some (SavePayload.mk "block-1" "merged")))).coord.components "block-1"
      = some (.comp { blockOne with content := "merged" }) ∧
    (handleWriteOutcome (handleMessage coordIdle
        (.save (some (SavePayload.mk "block-1" "merged")))).coord
        (.response 500)).components
      = (handleMessage coordIdle
        (.save (some (SavePayload.mk "block-1" "merged")))).coord.components :=
  ⟨(c10_merge_persists coordIdle (SavePayload.mk "block-1" "merged") blockOne
      rfl (by decide) (by decide)).1,
   (c10_merge_persists coordIdle (SavePayload.mk "block-1" "merged") blockOne
      rfl (by decide) (by decide)).2.2.2.2 (.response 500)⟩

/-! ## Claim theorems: the markup codec -/

/-- C1: the claim says decode processes every hyperlink and image element
and that the round trip is the identity on texts with no duplicate span per
line and no URL shaped alias.  The code disagrees: after rewriting a bare
wiki link anchor (or a URL shaped one) htmlToText returns from the whole
function instead of continuing the loop, so on the two line input with two
bare wiki links the decoded tree still contains an anchor element and its
plain text differs from the input. -/
theorem c1_decode_stops_after_first_anchor :
    (htmlToText (parseHtmlNodes (textToHtmlL c1Input.data))).map (List.any · isAnchorNode)
      = some true ∧
    (htmlToText (parseHtmlNodes (textToHtmlL c1Input.data))).map toPlainText
      ≠ some c1Input.data :=
  ⟨by decide, by decide⟩

/-- C6 counterexample: the claim says the URL and email patterns never match
text introduced by an earlier replacement step (all spans being matched
against unmodified source text).  The code disagrees: parseEmails runs on
the output of parseURLs, and on a URL containing an at sign the generated
anchor markup contains two email matches where the source line has one. -/
theorem c6_email_matches_replaced_text :
    emailMatches (parseURLsL (parseWikiLinksL c6Input.data))
      ≠ emailMatches c6Input.data := by
  decide

/-- C6 amended: per line the passes run in the fixed priority order wiki
links, then URLs, then emails, but each later pass matches against the text
produced by the earlier replacements rather than the unmodified source: on
the single URL line with an at sign the wiki pass is the identity, the
source holds one email match, and the URL pass output holds two (one inside
the generated href attribute). -/
theorem c6_priority_order_on_current_text :
    (∀ t : List Char, textToHtmlL t
        = joinWithBr ((splitOnNl t).map
            (fun l => parseEmailsL (parseURLsL (parseWikiLinksL l))))) ∧
    parseWikiLinksL c6Input.data = c6Input.data ∧
    emailMatches c6Input.data = ["//a@b.com".data] ∧
    emailMatches (parseURLsL (parseWikiLinksL c6Input.data))
      = ["//a@b.com".data, "//a@b.com".data] :=
  ⟨fun _ => rfl, by decide, by decide, by decide⟩

/-- C8 counterexample: the claim says every span category replaces only the
first remaining occurrence of the matched text.  The code disagrees for wiki
links: parseWikiLinks uses replaceAll, so processing the first match of a
line that contains the identical link twice converts both occurrences at
once, unlike the single replacement of first occurrence semantics. -/
theorem c8_wiki_step_replaces_both_occurrences :
    wikiMatches c8WikiLine.data
      = [("[[a]]".data, "a".data), ("[[a]]".data, "a".data)] ∧
    wikiStep c8WikiLine.data ("[[a]]".data, "a".data)
      = (wikiAnchorA ++ " " ++ wikiAnchorA).data ∧
    replaceFirstJS c8WikiLine.data "[[a]]".data (renderWikiHtml "a".data)
      = (wikiAnchorA ++ " [[a]]").data ∧
    wikiStep c8WikiLine.data ("[[a]]".data, "a".data)
      ≠ replaceFirstJS c8WikiLine.data "[[a]]".data (renderWikiHtml "a".data) :=
  ⟨by decide, by decide, by decide, by decide⟩

/-- C8 amended: URL and email matches are folded with a replace of the first
occurrence in the current string and wiki link matches with a replace of all
occurrences; concretely, a duplicated wiki link line is fully converted when
its first match is processed, while a duplicated URL line has its second
match replace the copy of the URL inside the first generated href
attribute. -/
theorem c8_replacement_semantics :
    (∀ text : List Char, parseWikiLinksL text = (wikiMatches text).foldl wikiStep text) ∧
    (∀ text : List Char, parseURLsL text = (urlMatches text).foldl urlStep text) ∧
    (∀ text : List Char, parseEmailsL text = (emailMatches text).foldl emailStep text) ∧
    parseWikiLinksL c8WikiLine.data = (wikiAnchorA ++ " " ++ wikiAnchorA).data ∧
    parseURLsL c8UrlLine.data =
      ("<a href=\"<a href=\"https://x.im\">https://x.im</a>\">https://x.im</a>"
        ++ " https://x.im").data :=
  ⟨fun _ => rfl, fun _ => rfl, fun _ => rfl, by decide, by decide⟩

/-- Relates the embedded IMAGE_REGEXP test to a closed characterisation: the
test succeeds exactly when the case folded URL ends with a dot and one of
the image extensions (the greedy dot star may be empty and the match may
start at any position, so the line terminator restriction never blocks a
true suffix). -/
theorem imageRegexpTest_iff_suffix (s : List Char) :
    imageRegexpTest s = true ↔
      ∃ e ∈ imageExts, ('.' :: e.data) <:+ (s.map Char.toLower) := by
  constructor
  · intro h
    rw [imageRegexpTest, List.any_eq_true] at h
    obtain ⟨i, _, hi⟩ := h
    rw [imageMatchFrom, List.any_eq_true] at hi
    obtain ⟨d, _, hd⟩ := hi
    rw [Bool.and_eq_true] at hd
    obtain ⟨_, hd⟩ := hd
    rw [extTailMatch, List.any_eq_true] at hd
    obtain ⟨e, he, heq⟩ := hd
    rw [beq_iff_eq] at heq
    refine ⟨e, he, ?_⟩
    rw [List.drop_drop, List.map_drop] at heq
    rw [← heq]
    exact List.drop_suffix _ _
  · rintro ⟨e, he, t, ht⟩
    have hlen : t.length + ('.' :: e.data).length = s.length := by
      have h2 := congrArg List.length ht
      simpa using h2
    rw [imageRegexpTest, List.any_eq_true]
    refine ⟨t.length, ?_, ?_⟩
    · rw [List.mem_range]; omega
    · rw [imageMatchFrom, List.any_eq_true]
      refine ⟨0, ?_, ?_⟩
      · rw [List.mem_range]; omega
      · rw [Bool.and_eq_true]
        refine ⟨by simp, ?_⟩
        rw [List.drop_zero, extTailMatch, List.any_eq_true]
        refine ⟨e, he, ?_⟩
        rw [beq_iff_eq, List.map_drop, ← ht, List.drop_left]

/-- C7 counterexample: the claim says the image classification looks at the
URL path even in the presence of a query string.  The code disagrees: the
pattern is anchored at the end of the whole URL string, so a png path
followed by a query string is not classified as an image although the path
ends with the extension. -/
theorem c7_query_defeats_image_test :
    isSpecialtyUrl c7Url = false ∧ specPathIsImage c7Url = true :=
  ⟨by decide, by decide⟩

/-- C7 amended: isSpecialtyUrl returns true exactly when the entire URL
string (not its path) ends, case insensitively, with a dot and one of the
ten raster image extensions; any query string or fragment after the path
defeats the classification. -/
theorem c7_image_test_iff_whole_url_suffix (url : String) :
    isSpecialtyUrl url = true ↔
      ∃ e ∈ imageExts, ('.' :: e.data) <:+ (url.data.map Char.toLower) :=
  imageRegexpTest_iff_suffix url.data
